import Mathlib

/-!
Shallow embedding of the pedarProbe plantar-pressure pipeline
(source files `pedar.py` and `pedarProbe/export.py`) together with
proofs about it.

Python floats / numpy float64 values are modelled as `ℚ`: none of the
properties below depends on rounding, only on control flow, indexing
and exact arithmetic.  Behaviour of the pandas / numpy / regex
primitives at the narrow interfaces the code uses is modelled
explicitly and documented at each definition.
-/

namespace PedarProbe

/-- `Pedar_asc.id_map` (`pedar.py`).  `'L'`/`'l'` maps `sensor_id` to
`sensor_id - 1`, `'R'`/`'r'` maps it to `sensor_id + 98`; any other foot
symbol prints a message and falls off the end of the function, so the
Python call returns `None`, modelled here as `none`. -/
def id_map (foot : String) (sensor_id : Int) : Option Int :=
  if foot = "L" ∨ foot = "l" then some (sensor_id - 1)
  else if foot = "R" ∨ foot = "r" then some (sensor_id + 98)
  else none

/-- The lines printed by `id_map`: on an unrecognized foot symbol it prints
`'invalid foot type when enquiry '` followed by the file path. -/
def id_map_log (path foot : String) : List String :=
  if foot = "L" ∨ foot = "l" ∨ foot = "R" ∨ foot = "r" then []
  else ["invalid foot type when enquiry " ++ path]

/-- The time-indexed pressure matrix loaded by `Pedar_asc.__init__` via
`pd.read_csv(..., names=range(199), index_col=0)`: a float time index
(ascending, per the spec's external-interface description of the recording
file) and integer column labels `0..198` (the spec's TrialTable: 199 integer
channel keys, of which channels `0..197` are used).  Cell lookup is total
(`val`), as in a dense dataframe. -/
structure Pedar_doc where
  times : List ℚ
  val : ℚ → Int → ℚ

/-- The integer column labels `0..198` of the loaded dataframe. -/
def doc_columns : List Int := (List.range 199).map (fun n => (n : Int))

/-- Result of a 2-D `.loc` slice: the retained row (time) labels, the
retained column (channel) labels, and the corresponding data block. -/
structure TimeSensorSlice where
  times : List ℚ
  channels : List Int
  data : List (List ℚ)
deriving DecidableEq

/-- `Pedar_asc.get_time_sensor_slice`:
`self.doc.loc[start_time:end_time, id_map(foot,s0):id_map(foot,s1)]`.
Pandas label slicing on the (monotonically increasing) time index keeps
exactly the labels in `[t0, t1]`, both ends inclusive, and on the integer
column labels exactly those in `[c0, c1]`, both ends inclusive.  When
`id_map` returned Python `None` (unrecognized foot), the column slice is
`None:None`, which pandas reads as "all columns" — the call does not raise. -/
def get_time_sensor_slice (doc : Pedar_doc) (foot : String) (t0 t1 : ℚ)
    (s0 : Int := 1) (s1 : Int := 99) : TimeSensorSlice :=
  let ts := doc.times.filter (fun t => decide (t0 ≤ t ∧ t ≤ t1))
  let cs :=
    match id_map foot s0, id_map foot s1 with
    | some c0, some c1 => doc_columns.filter (fun c => decide (c0 ≤ c ∧ c ≤ c1))
    | _, _ => doc_columns
  ⟨ts, cs, ts.map (fun t => cs.map (fun c => doc.val t c))⟩

/-- `Pedar_asc.get_time_sensor`: `self.doc.loc[time, id_map(foot, sensor_id)]`.
A scalar `.loc` with an absent row label or an absent column label — in
particular the column label `None` produced by an unrecognized foot symbol —
raises `KeyError`, modelled as `none`. -/
def get_time_sensor (doc : Pedar_doc) (foot : String) (time : ℚ)
    (sensor_id : Int) : Option ℚ :=
  match id_map foot sensor_id with
  | none => none
  | some c =>
      if time ∈ doc.times ∧ c ∈ doc_columns then some (doc.val time c) else none

/-! ### Foot heatmap fill (`pedarProbe/export.py`, `FootHeatmap`)

`load_foot_mask` loads a single-channel left-foot mask image and mirrors it
horizontally for the right foot, then records, for `n` in `range(0, 198)`,
`l_index[n] = np.where(l_mask == n + 1)` and
`r_index[n + 99] = np.where(r_mask == n + 1)`.
A mask is modelled as a total pixel-value function `Nat → Nat → Nat` plus a
width `w` for the mirror (`ImageOps.mirror` maps pixel `(i, j)` to
`(i, w - 1 - j)`).  `fill_foot_heat_map` starts from two all-zero grids
(`np.zeros`) and, for each channel id `n` in the attribute series, assigns
the channel's value to every pixel of `l_index[n]` when `n <= 99` and of
`r_index[n]` otherwise. -/

/-- The mirrored (right-foot) mask derived from the left-foot mask by
`ImageOps.mirror`. -/
def r_mask_of (l_mask : Nat → Nat → Nat) (w : Nat) : Nat → Nat → Nat :=
  fun i j => l_mask i (w - 1 - j)

/-- One iteration of the fill loop in `FootHeatmap.fill_foot_heat_map`:
`if n <= 99: l_pedar[l_index[n]] = v  else: r_pedar[r_index[n]] = v`,
where `l_index[n]` is the left-mask region of value `n + 1` and
`r_index[n]` (for keys above 99) is the mirrored-mask region of value
`n - 99 + 1 = n - 98`. -/
def fill_step (l_mask : Nat → Nat → Nat) (w : Nat)
    (g : (Nat → Nat → ℚ) × (Nat → Nat → ℚ)) (e : Nat × ℚ) :
    (Nat → Nat → ℚ) × (Nat → Nat → ℚ) :=
  if e.1 ≤ 99 then
    (fun i j => if l_mask i j = e.1 + 1 then e.2 else g.1 i j, g.2)
  else
    (g.1, fun i j => if r_mask_of l_mask w i j = e.1 - 98 then e.2 else g.2 i j)

/-- `FootHeatmap.fill_foot_heat_map`: paint the attribute series (a list of
`(channel id, value)` pairs) onto fresh all-zero left/right grids. -/
def fill_foot_heat_map (l_mask : Nat → Nat → Nat) (w : Nat)
    (series : List (Nat × ℚ)) : (Nat → Nat → ℚ) × (Nat → Nat → ℚ) :=
  series.foldl (fill_step l_mask w) (fun _ _ => 0, fun _ _ => 0)

/-- A concrete 1 × 2 left-foot mask: pixel `(0,0)` has region value `100`
(the region `l_index[99]`) and pixel `(0,1)` has region value `1`
(the region `l_index[0]`).  Its mirror therefore has value `1` at `(0,0)`. -/
def l_mask_ex : Nat → Nat → Nat :=
  fun i j => if i = 0 ∧ j = 0 then 100 else if i = 0 ∧ j = 1 then 1 else 0

/-! ### Stance-string parsing (`Pedar_Subject.add_trail`)

`add_trail` extracts the stance interval from a stance cell string with
`float(re.search(r'^[0-9\.]+[^-]', stance).group())` and
`float(re.search(r'[^-][0-9\.]+$', stance).group())`.
The two regexes are modelled exactly (greedy matching with backtracking over
the class `[0-9.]`), and Python `float` on the resulting token is modelled as
an exact rational parser for the token shapes those regexes can produce
(optional surrounding spaces, an optional leading `+`, digits with at most
one dot; anything else raises `ValueError`).  A failed `re.search` returns
`None`, so `.group()` raises `AttributeError`; both failure modes land in the
same `except` handler, so both are modelled as `none`. -/

/-- Characters of the regex class `[0-9.]`. -/
def isNumChar (c : Char) : Bool := c.isDigit || c = '.'

/-- `re.search(r'^[0-9\.]+[^-]', s)`: a maximal leading `[0-9.]` run, then a
single character other than `'-'`; with greedy backtracking the run's last
character can serve as the `[^-]` character when nothing else follows. -/
def search_start (s : String) : Option String :=
  let cs := s.toList
  let run := cs.takeWhile isNumChar
  if run.isEmpty then none
  else
    match cs.drop run.length with
    | c :: _ =>
        if c ≠ '-' then some (String.mk (run ++ [c]))
        else if 2 ≤ run.length then some (String.mk run) else none
    | [] => if 2 ≤ run.length then some (String.mk run) else none

/-- `re.search(r'[^-][0-9\.]+$', s)`: a maximal trailing `[0-9.]` run; the
leftmost match starts at the character just before the run when that exists
and is not `'-'`, otherwise one character into the run (needing at least two
run characters). -/
def search_end (s : String) : Option String :=
  let cs := s.toList
  let run := (cs.reverse.takeWhile isNumChar).reverse
  if run.isEmpty then none
  else if run.length = cs.length then
    if 2 ≤ run.length then some (String.mk run) else none
  else
    let c := cs.getD (cs.length - run.length - 1) ' '
    if c ≠ '-' then some (String.mk (c :: run))
    else if 2 ≤ run.length then some (String.mk run) else none

/-- Decimal value of a digit list. -/
def digitsVal (cs : List Char) : Nat :=
  cs.foldl (fun a c => a * 10 + (c.toNat - '0'.toNat)) 0

/-- Python `float(token)` for the tokens reachable from the two stance
regexes, as an exact rational: strips spaces, accepts an optional leading
`'+'`, then digits with at most one `'.'` and at least one digit overall;
everything else raises `ValueError`, modelled as `none`. -/
def pyFloat (s : String) : Option ℚ :=
  let cs := s.toList
  let cs := cs.dropWhile (fun c => c = ' ')
  let cs := (cs.reverse.dropWhile (fun c => c = ' ')).reverse
  let cs := match cs with
    | '+' :: t => t
    | _ => cs
  let ip := cs.takeWhile Char.isDigit
  let rest := cs.drop ip.length
  match rest with
  | [] => if ip.isEmpty then none else some ((digitsVal ip : ℚ))
  | '.' :: fp =>
      if fp.all Char.isDigit && (!ip.isEmpty || !fp.isEmpty) then
        some ((digitsVal ip : ℚ) + (digitsVal fp : ℚ) / ((10 : ℚ) ^ fp.length))
      else none
  | _ => none

/-- The stance start value: `float(re.search(r'^[0-9\.]+[^-]', s).group())`. -/
def parse_start (s : String) : Option ℚ := (search_start s).bind pyFloat

/-- The stance end value: `float(re.search(r'[^-][0-9\.]+$', s).group())`. -/
def parse_end (s : String) : Option ℚ := (search_end s).bind pyFloat

/-! ### `Pedar_Subject.add_trail` and its per-stance loop -/

/-- A cell of the `stance phase N` columns: a Python string, or any non-string
value (e.g. the `NaN` of an empty spreadsheet cell), which the loop skips with
`if type(stance) != str: continue`. -/
inductive StanceEntry where
  | strE (s : String)
  | nonStr
deriving DecidableEq

/-- Sortedness check for the time index (pandas `is_monotonic_increasing`). -/
def sortedTimes : List ℚ → Bool
  | [] => true
  | [_] => true
  | a :: b :: t => decide (a ≤ b) && sortedTimes (b :: t)

/-- A loaded recording, i.e. a `Pedar_asc` object: the path it was read from
and the parsed dataframe. -/
structure Pedar_asc where
  path : String
  doc : Pedar_doc

/-- The slice expression inside the stance loop,
`asc_object.get_time_sensor_slice(foot, start, end)`.  Pandas raises
`KeyError` when range-slicing a non-monotonic time index at bound labels
that are absent from it; that is the one failure mode of this call (an
unrecognized foot does NOT make it raise, see `get_time_sensor_slice`).
`none` models the raise. -/
def get_slice_checked (asc : Pedar_asc) (foot : String) (t0 t1 : ℚ) :
    Option TimeSensorSlice :=
  if !sortedTimes asc.doc.times && (decide (t0 ∉ asc.doc.times) || decide (t1 ∉ asc.doc.times)) then
    none
  else
    some (get_time_sensor_slice asc.doc foot t0 t1 1 99)

/-- Keys of the per-foot stance dictionary.  The Python dict uses the strings
`'{i}_start'`, `'{i}_end'` and `'{i}'` (with `i` the stance index); since that
string formatting is injective, a key is modelled as the pair of the index
and which of the three facts it names. -/
inductive FactKey where
  | startK (i : Nat)
  | endK (i : Nat)
  | sliceK (i : Nat)
deriving DecidableEq

/-- The stance index a key belongs to. -/
def FactKey.idx : FactKey → Nat
  | .startK i => i
  | .endK i => i
  | .sliceK i => i

/-- A value of the per-foot stance dictionary: a scalar float
(`{i}_start` / `{i}_end`) or a table slice (`{i}`). -/
inductive Fact where
  | scalar (q : ℚ)
  | sliceF (s : TimeSensorSlice)
deriving DecidableEq

/-- Addressing context of the `except` handler inside the stance loop:
`print('FATAL: {name} - [{condition}][{time}][{foot}][{stance}]')`. -/
structure StanceLog where
  subject : String
  condition : String
  time : String
  foot : String
  stance : String
deriving DecidableEq

/-- The log record emitted by the stance loop's `except` branch. -/
def mkStanceLog (subject condition time foot stance : String) : StanceLog :=
  ⟨subject, condition, time, foot, stance⟩

/-- One iteration of the stance loop of `add_trail`, acting on the current
per-foot dictionary (an association list; all keys inserted carry the current
index, so insertion order is append).  Non-strings are skipped silently.
Start is parsed, then end; only after both succeed does the code store
`'{i}_start'` and `'{i}_end'`, and only then evaluate and store the slice
`'{i}'`.  Any raise inside (parse failure or slice failure) is caught by the
`except`, which prints the full addressing context and continues. -/
def stance_step (asc : Pedar_asc) (subject condition time foot : String)
    (facts : List (FactKey × Fact)) (i : Nat) (e : StanceEntry) :
    List (FactKey × Fact) × List StanceLog :=
  match e with
  | .nonStr => (facts, [])
  | .strE s =>
    match parse_start s with
    | none => (facts, [mkStanceLog subject condition time foot s])
    | some a =>
      match parse_end s with
      | none => (facts, [mkStanceLog subject condition time foot s])
      | some b =>
        let facts' := facts ++ [(FactKey.startK i, Fact.scalar a), (FactKey.endK i, Fact.scalar b)]
        match get_slice_checked asc foot a b with
        | none => (facts', [mkStanceLog subject condition time foot s])
        | some sl => (facts' ++ [(FactKey.sliceK i, Fact.sliceF sl)], [])

/-- The stance loop `for idx in range(len(stances))` of `add_trail`,
threading the growing per-foot dictionary and the printed logs. -/
def process_stances_aux (asc : Pedar_asc) (subject condition time foot : String) :
    List (FactKey × Fact) → List StanceLog → Nat → List StanceEntry →
    List (FactKey × Fact) × List StanceLog
  | facts, logs, _, [] => (facts, logs)
  | facts, logs, i, e :: rest =>
      let r := stance_step asc subject condition time foot facts i e
      process_stances_aux asc subject condition time foot r.1 (logs ++ r.2) (i + 1) rest

/-- The whole stance loop of `add_trail`, started on the fresh empty foot
dictionary (`self.trails[condition][time][foot] = {}`). -/
def process_stances (asc : Pedar_asc) (subject condition time foot : String)
    (stances : List StanceEntry) : List (FactKey × Fact) × List StanceLog :=
  process_stances_aux asc subject condition time foot [] [] 0 stances

/-- Specification helper: the contribution of a single stance entry,
i.e. `stance_step` run on an empty dictionary. -/
def stance_delta (asc : Pedar_asc) (subject condition time foot : String)
    (i : Nat) (e : StanceEntry) : List (FactKey × Fact) × List StanceLog :=
  stance_step asc subject condition time foot [] i e

/-- Specification helper: the stance loop as a pure concatenation of
per-entry contributions, starting at index `i`. -/
def processFrom (asc : Pedar_asc) (subject condition time foot : String) :
    Nat → List StanceEntry → List (FactKey × Fact) × List StanceLog
  | _, [] => ([], [])
  | i, e :: rest =>
      let d := stance_delta asc subject condition time foot i e
      let r := processFrom asc subject condition time foot (i + 1) rest
      (d.1 ++ r.1, d.2 ++ r.2)

/-- Entry `trails[condition][time]` of a subject: the `'asc'` key (the loaded
recording, absent until the first successful load) and the per-foot stance
dictionaries.  The Python code keeps both in one string-keyed dict; they are
split into fields here (`'asc'` is not a foot symbol in any actual input). -/
structure TimeSlot where
  asc : Option Pedar_asc
  feet : List (String × List (FactKey × Fact))

/-- Insert-or-overwrite into an association list (Python dict assignment:
an existing key keeps its position, a new key is appended). -/
def aupdate {α : Type} : List (String × α) → String → α → List (String × α)
  | [], k, v => [(k, v)]
  | (k', v') :: t, k, v =>
      if k' = k then (k, v) :: t else (k', v') :: aupdate t k v

/-- A `Pedar_Subject`: name, data folder, and the nested
`trails[condition][time]` dictionary. -/
structure Pedar_Subject where
  name : String
  folder : String
  trails : List (String × List (String × TimeSlot))

/-- The recording path built by `add_trail`:
`'{folder}/{name}/{asc}.asc'`. -/
def asc_path (folder name asc : String) : String :=
  folder ++ "/" ++ name ++ "/" ++ asc ++ ".asc"

/-- Result of one `add_trail` call: the updated subject, the list of
recording paths for which a `Pedar_asc` was constructed (i.e. the file was
read) during the call, the stance-loop logs, and whether the call raised
(`pd.read_csv` failing on the recording path — the only raise that can
escape `add_trail`, since the stance loop catches its own). -/
structure AddTrailResult where
  subject : Pedar_Subject
  loads : List String
  logs : List StanceLog
  raised : Bool

/-- `Pedar_Subject.add_trail(asc, condition, time, foot, stances)` against a
file system `fs` mapping a path to its parsed recording (or `none` when
reading raises).  Steps, in source order: ensure `trails[condition]` and
`trails[condition][time]` exist; construct `Pedar_asc` (always — no reuse of
a previously loaded table) and store it under `'asc'`, overwriting any
previous one; reset the foot dictionary to `{}`; run the stance loop.  When
the file read raises, the freshly ensured (still empty) slots remain in the
subject and the exception propagates. -/
def add_trail (fs : String → Option Pedar_doc) (subj : Pedar_Subject)
    (asc condition time foot : String) (stances : List StanceEntry) :
    AddTrailResult :=
  let path := asc_path subj.folder subj.name asc
  let condMap := ((subj.trails.lookup condition).getD [])
  let slot0 := ((condMap.lookup time).getD ⟨none, []⟩)
  let condMapE :=
    if (condMap.lookup time).isSome then condMap
    else aupdate condMap time ⟨none, []⟩
  match fs path with
  | none =>
      { subject := { subj with trails := aupdate subj.trails condition condMapE },
        loads := [path], logs := [], raised := true }
  | some doc =>
      let ascObj : Pedar_asc := ⟨path, doc⟩
      let r := process_stances ascObj subj.name condition time foot stances
      let slot1 : TimeSlot := ⟨some ascObj, aupdate slot0.feet foot r.1⟩
      { subject := { subj with
          trails := aupdate subj.trails condition (aupdate condMapE time slot1) },
        loads := [path], logs := r.2, raised := false }

/-- Read the per-foot stance dictionary stored at
`trails[condition][time][foot]` of a subject. -/
def foot_facts (subj : Pedar_Subject) (condition time foot : String) :
    Option (List (FactKey × Fact)) :=
  (subj.trails.lookup condition).bind fun cm =>
    (cm.lookup time).bind fun slot => slot.feet.lookup foot

/-! ### `Trails_Parser.__init__` — the top-level ingestion loop

The loop walks the spreadsheet rows in order.  For each row it reads the
identifier (column `'Unnamed: 0'`) and checks it against the pattern
`'S[1-9][0-9]* (<cond1>|<cond2>|...) [1-9][0-9]*$'` built by
`generate_asc_pattern`; on failure it prints
`'invalid asc entry name: ...'` and `break`s out of the loop.  On success the
row body (condition/time/subject extraction, subject creation, `add_trail`)
runs inside `try`, and any exception is caught, printed as
`'FATAL: {index}-th entry'`, and the loop continues with the next row. -/

/-- `[1-9][0-9]*`: a non-empty digit token without a leading zero. -/
def posNumTok (cs : List Char) : Bool :=
  match cs with
  | [] => false
  | c :: rest => ('1' ≤ c && c ≤ '9') && rest.all Char.isDigit

/-- The `(<cond1>|...|<condN>) [1-9][0-9]*$` tail of the pattern: one of the
condition literals, a space, then a digit token reaching the end. -/
def matchCondTail (conds : List String) (cs : List Char) : Bool :=
  conds.any fun c =>
    let cl := (c ++ " ").toList
    decide (cs.take cl.length = cl) && posNumTok (cs.drop cl.length)

/-- `re.match` of the pattern generated by `generate_asc_pattern`:
`'S[1-9][0-9]* (' + '|'.join(conditions) + ') [1-9][0-9]*$'`, anchored at the
start by `re.match` and at the end by `$`. -/
def matchAsc (conds : List String) (s : String) : Bool :=
  match s.toList with
  | 'S' :: rest =>
      let d := rest.takeWhile Char.isDigit
      posNumTok d &&
        (match rest.drop d.length with
         | ' ' :: tl => matchCondTail conds tl
         | _ => false)
  | _ => false

/-- `re.search('^S[0-9]+', asc).group()`: the leading subject token. -/
def extract_subject (s : String) : Option String :=
  match s.toList with
  | 'S' :: rest =>
      let d := rest.takeWhile Char.isDigit
      if d.isEmpty then none else some (String.mk ('S' :: d))
  | _ => none

/-- `re.search('[0-9]+$', asc).group()`: the trailing time token. -/
def extract_time (s : String) : Option String :=
  let r := (s.toList.reverse.takeWhile Char.isDigit).reverse
  if r.isEmpty then none else some (String.mk r)

/-- Characters of the regex class `[a-z ]`. -/
def isCondChar (c : Char) : Bool := ('a' ≤ c && c ≤ 'z') || c = ' '

/-- The group of `'(?<= )[a-z ]+(?= )'` when matched at the current position:
the greedy `[a-z ]+` run backtracks until the lookahead space — i.e. the run
is cut at its last internal space (which must leave at least one character). -/
def condGroupAt (cs : List Char) : Option (List Char) :=
  let run := cs.takeWhile isCondChar
  let rev := run.reverse.dropWhile (fun c => c ≠ ' ')
  match rev with
  | [] => none
  | _ :: tl => if tl.isEmpty then none else some tl.reverse

/-- Left-to-right scan of `re.search('(?<= )[a-z ]+(?= )', s)`: tries each
position whose previous character is a space. -/
def condSearchAux : Char → List Char → Option (List Char)
  | _, [] => none
  | prev, c :: rest =>
      if prev = ' ' && isCondChar c then
        match condGroupAt (c :: rest) with
        | some g => some g
        | none => condSearchAux c rest
      else condSearchAux c rest

/-- `re.search('(?<= )[a-z ]+(?= )', asc).group()`: the condition token. -/
def extract_condition (s : String) : Option String :=
  (condSearchAux 'S' s.toList).map (fun l => String.mk l)

/-- A spreadsheet row: the identifier (`'Unnamed: 0'`), the `sideFoot`
column, and the `stance phase` cells. -/
structure TrailRow where
  asc : String
  sideFoot : String
  stances : List StanceEntry

/-- Events printed by the ingestion loop. -/
inductive LoopEvent where
  /-- `'invalid asc entry name: ...'`, printed just before `break`. -/
  | invalidAsc (asc : String)
  /-- `'FATAL: {index}-th entry'`, printed by the `except` branch. -/
  | fatalRow (index : Nat)
  /-- the row was fully ingested (progress bar drawn). -/
  | ingested (index : Nat)
deriving DecidableEq

/-- The subjects dictionary of the parser. -/
def Subjects : Type := List (String × Pedar_Subject)

/-- The `try` body for one row, after the identifier already passed the
pattern check: extract condition / time / subject name from the identifier,
create the subject if new, call `add_trail`.  Extraction failure
(`.group()` on `None`) and a raise escaping `add_trail` both land in the
`except` branch; already-performed mutations (subject creation, the slots
ensured by `add_trail`) persist. -/
def process_row (fs : String → Option Pedar_doc) (folder : String)
    (subs : Subjects) (idx : Nat) (row : TrailRow) : Subjects × LoopEvent :=
  match extract_condition row.asc, extract_time row.asc, extract_subject row.asc with
  | some cond, some time, some sname =>
      let subj := (List.lookup sname subs).getD ⟨sname, folder, []⟩
      let r := add_trail fs subj row.asc cond time row.sideFoot row.stances
      (aupdate subs sname r.subject,
       if r.raised then LoopEvent.fatalRow idx else LoopEvent.ingested idx)
  | _, _, _ => (subs, LoopEvent.fatalRow idx)

/-- The `for index in self.doc.index` loop of `Trails_Parser.__init__`:
check the identifier, `break` on failure, otherwise run the row body under
`try`/`except` and continue. -/
def parser_loop (fs : String → Option Pedar_doc) (conds : List String)
    (folder : String) : Subjects → Nat → List TrailRow → Subjects × List LoopEvent
  | subs, _, [] => (subs, [])
  | subs, idx, row :: rest =>
      if matchAsc conds row.asc then
        let r := process_row fs folder subs idx row
        let r' := parser_loop fs conds folder r.1 (idx + 1) rest
        (r'.1, r.2 :: r'.2)
      else (subs, [LoopEvent.invalidAsc row.asc])

/-! ### `FootHeatmap` arithmetic (`pedarProbe/export.py`)

Each operator does `new_hm = copy.deepcopy(self)` followed by an in-place
numpy update (`+=`, `-=`, `*=`, `/=`) on the copy's arrays, and returns the
copy.  To make "returns a new object and does not mutate the operands"
expressible, numpy arrays live in an explicit store (`NpHeap`) and a
`FootHeatmap` object holds references into it; `deepcopy` allocates fresh
arrays, the in-place ufuncs overwrite the referenced array.  An in-place
ufunc `dst op= src` succeeds iff `src` broadcasts into `dst`'s shape (the
output of an in-place ufunc cannot grow), and raises `ValueError`
otherwise. -/

/-- A numpy 2-D float array value. -/
def NpGrid : Type := List (List ℚ)

instance : DecidableEq NpGrid := by unfold NpGrid; infer_instance

/-- numpy `.shape` of a 2-D array. -/
def np_shape (g : NpGrid) : Nat × Nat := (g.length, (g.getD 0 []).length)

/-- Whether `src` broadcasts into `dst` for an in-place ufunc: each source
extent equals the destination extent or is 1. -/
def bcast_ok (dst src : NpGrid) : Bool :=
  ((np_shape src).1 == (np_shape dst).1 || (np_shape src).1 == 1) &&
  ((np_shape src).2 == (np_shape dst).2 || (np_shape src).2 == 1)

/-- Value of the broadcast `src` at destination coordinates. -/
def bc_get (src : NpGrid) (i j : Nat) : ℚ :=
  let i' := if (np_shape src).1 = 1 then 0 else i
  let j' := if (np_shape src).2 = 1 then 0 else j
  (src.getD i' []).getD j' 0

/-- One destination row of the elementwise combination: entry `j` becomes
`f dst[i][j] src[bcast i][bcast j]`. -/
def comb_row (f : ℚ → ℚ → ℚ) (src : NpGrid) (i : Nat) : Nat → List ℚ → List ℚ
  | _, [] => []
  | j, v :: vs => f v (bc_get src i j) :: comb_row f src i (j + 1) vs

/-- All destination rows of the elementwise combination. -/
def comb_rows (f : ℚ → ℚ → ℚ) (src : NpGrid) : Nat → List (List ℚ) → List (List ℚ)
  | _, [] => []
  | i, row :: rest => comb_row f src i 0 row :: comb_rows f src (i + 1) rest

/-- In-place elementwise combination `dst f= src` with broadcasting; `none`
models the `ValueError` numpy raises when `src` does not broadcast into
`dst`. -/
def inplace_comb (f : ℚ → ℚ → ℚ) (dst src : NpGrid) : Option NpGrid :=
  if bcast_ok dst src then some (comb_rows f src 0 dst) else none

/-- In-place scalar map, for `*= val` and `/= val`. -/
def scalar_map (f : ℚ → ℚ) (g : NpGrid) : NpGrid :=
  (g : List (List ℚ)).map (List.map f)

/-- The store of numpy arrays. -/
structure NpHeap where
  arrays : List NpGrid
deriving DecidableEq

/-- Dereference an array. -/
def NpHeap.read (h : NpHeap) (r : Nat) : NpGrid := h.arrays.getD r []

/-- Allocate a fresh array, returning its reference. -/
def NpHeap.alloc (h : NpHeap) (g : NpGrid) : NpHeap × Nat :=
  (⟨h.arrays ++ [g]⟩, h.arrays.length)

/-- Overwrite the array behind a reference (an in-place ufunc). -/
def NpHeap.write (h : NpHeap) (r : Nat) (g : NpGrid) : NpHeap :=
  ⟨h.arrays.set r g⟩

/-- A `FootHeatmap` object: references to its `l_pedar` and `r_pedar`
arrays. -/
structure FootHeatmap where
  l_pedar : Nat
  r_pedar : Nat
deriving DecidableEq

/-- `copy.deepcopy(self)`: a new object holding fresh copies of the two
grids. -/
def deepcopy (h : NpHeap) (o : FootHeatmap) : NpHeap × FootHeatmap :=
  let a1 := h.alloc (h.read o.l_pedar)
  let a2 := a1.1.alloc (h.read o.r_pedar)
  (a2.1, ⟨a1.2, a2.2⟩)

/-- `FootHeatmap.__add__` / `__sub__`: deepcopy `self`, then in-place
combine `other`'s grids into the copy's grids, returning the copy; a failed
broadcast propagates as `ValueError`. -/
def hm_binop (f : ℚ → ℚ → ℚ) (h : NpHeap) (a b : FootHeatmap) :
    Option (NpHeap × FootHeatmap) :=
  let d := deepcopy h a
  (inplace_comb f (d.1.read d.2.l_pedar) (d.1.read b.l_pedar)).bind fun gl =>
    let h2 := d.1.write d.2.l_pedar gl
    (inplace_comb f (h2.read d.2.r_pedar) (h2.read b.r_pedar)).map fun gr =>
      (h2.write d.2.r_pedar gr, d.2)

/-- `FootHeatmap.__add__`. -/
def hm_add (h : NpHeap) (a b : FootHeatmap) : Option (NpHeap × FootHeatmap) :=
  hm_binop (· + ·) h a b

/-- `FootHeatmap.__sub__`. -/
def hm_sub (h : NpHeap) (a b : FootHeatmap) : Option (NpHeap × FootHeatmap) :=
  hm_binop (· - ·) h a b

/-- `FootHeatmap.__mul__`: deepcopy then in-place scalar multiply. -/
def hm_mul (h : NpHeap) (a : FootHeatmap) (val : ℚ) : NpHeap × FootHeatmap :=
  let d := deepcopy h a
  let h2 := d.1.write d.2.l_pedar (scalar_map (· * val) (d.1.read d.2.l_pedar))
  (h2.write d.2.r_pedar (scalar_map (· * val) (h2.read d.2.r_pedar)), d.2)

/-- `FootHeatmap.__truediv__`: deepcopy then in-place scalar divide.
(numpy maps a zero divisor to `inf`/`nan` with a runtime warning, not an
exception; the quotient values are irrelevant to the properties proved
here.) -/
def hm_div (h : NpHeap) (a : FootHeatmap) (val : ℚ) : NpHeap × FootHeatmap :=
  let d := deepcopy h a
  let h2 := d.1.write d.2.l_pedar (scalar_map (· / val) (d.1.read d.2.l_pedar))
  (h2.write d.2.r_pedar (scalar_map (· / val) (h2.read d.2.r_pedar)), d.2)

/-- `sum(hms[1:], start=hms[0])`: left fold of `__add__`. -/
def hm_sum : NpHeap → FootHeatmap → List FootHeatmap → Option (NpHeap × FootHeatmap)
  | h, acc, [] => some (h, acc)
  | h, acc, x :: xs =>
      match hm_add h acc x with
      | none => none
      | some r => hm_sum r.1 r.2 xs

/-- `FootHeatmap.average(*hms)`: `sum(hms[1:], start=hms[0]) / len(hms)`.
On an empty argument tuple, `hms[0]` raises `IndexError`, modelled as
`none`. -/
def hm_average (h : NpHeap) (hms : List FootHeatmap) :
    Option (NpHeap × FootHeatmap) :=
  match hms with
  | [] => none
  | h0 :: rest =>
      match hm_sum h h0 rest with
      | none => none
      | some r => some (hm_div r.1 r.2 ((hms.length : Nat) : ℚ))

/-- All arrays that existed in `h` exist unchanged in `h'`: in particular no
operand grid was mutated. -/
def Preserves (h h' : NpHeap) : Prop :=
  h.arrays.length ≤ h'.arrays.length ∧
  ∀ r, r < h.arrays.length → h'.read r = h.read r

/-- The object's grids were allocated after heap `h`: it is a new object,
distinct from every object whose references were valid in `h`. -/
def FreshObj (h : NpHeap) (o : FootHeatmap) : Prop :=
  h.arrays.length ≤ o.l_pedar ∧ h.arrays.length ≤ o.r_pedar

/-! ### Theorems -/

theorem mem_doc_columns (c : Int) : c ∈ doc_columns ↔ 0 ≤ c ∧ c ≤ 198 := by
  simp [doc_columns]
  constructor
  · rintro ⟨n, hn, rfl⟩
    omega
  · rintro ⟨h0, h1⟩
    exact ⟨c.toNat, by omega, by omega⟩

/-- C1: for every foot symbol other than `'L'`, `'l'`, `'R'`, `'r'`, the
channel lookup `id_map` produces no channel index (Python `None`), the
invalid-foot message is printed, and the scalar table lookup built on the
result yields no usable value (pandas raises `KeyError` on the `None`
column label). -/
theorem c1_invalid_foot_fails (path foot : String) (sensor_id : Int)
    (doc : Pedar_doc) (time : ℚ)
    (h : foot ≠ "L" ∧ foot ≠ "l" ∧ foot ≠ "R" ∧ foot ≠ "r") :
    id_map foot sensor_id = none ∧
    id_map_log path foot = ["invalid foot type when enquiry " ++ path] ∧
    get_time_sensor doc foot time sensor_id = none := by
  obtain ⟨h1, h2, h3, h4⟩ := h
  refine ⟨?_, ?_, ?_⟩
  · simp [id_map, h1, h2, h3, h4]
  · simp [id_map_log, h1, h2, h3, h4]
  · simp [get_time_sensor, id_map, h1, h2, h3, h4]

theorem c1_witness :
    id_map "X" 5 = none ∧
    id_map_log "data/S1 fast walking 1.asc" "X" =
      ["invalid foot type when enquiry " ++ "data/S1 fast walking 1.asc"] ∧
    get_time_sensor ⟨[], fun _ _ => 0⟩ "X" 0 5 = none :=
  c1_invalid_foot_fails "data/S1 fast walking 1.asc" "X" 5 ⟨[], fun _ _ => 0⟩ 0
    (by refine ⟨?_, ?_, ?_, ?_⟩ <;> decide)

/-- C6: for every sensor id in `[1, 99]`, the left foot maps to channel
`sensor_id - 1` and the right foot to `sensor_id + 98`, and the lowercase
symbols give the same result as the uppercase ones. -/
theorem c6_id_map_values (sensor_id : Int)
    (h1 : 1 ≤ sensor_id) (h2 : sensor_id ≤ 99) :
    id_map "L" sensor_id = some (sensor_id - 1) ∧
    id_map "l" sensor_id = some (sensor_id - 1) ∧
    id_map "R" sensor_id = some (sensor_id + 98) ∧
    id_map "r" sensor_id = some (sensor_id + 98) := by
  refine ⟨?_, ?_, ?_, ?_⟩ <;> simp [id_map]

theorem c6_witness :
    (1 : Int) ≤ 5 ∧
    (id_map "L" 5 = some 4 ∧ id_map "l" 5 = some 4 ∧
     id_map "R" 5 = some 103 ∧ id_map "r" 5 = some 103) :=
  ⟨by decide, c6_id_map_values 5 (by decide) (by decide)⟩

/-- C7: for a recognized foot, sensor ids in the sensor range `[1, 99]` and
any time bounds, `get_time_sensor_slice` keeps exactly the time labels lying
in `[t0, t1]` (both ends inclusive) and exactly the channel columns from
`id_map foot s0` to `id_map foot s1` (both ends inclusive). -/
theorem c7_slice_inclusive (doc : Pedar_doc) (foot : String) (t0 t1 : ℚ)
    (s0 s1 : Int)
    (hfoot : foot = "L" ∨ foot = "l" ∨ foot = "R" ∨ foot = "r")
    (hts : t0 ≤ t1) (hsorted : doc.times.Sorted (· ≤ ·))
    (hs0 : 1 ≤ s0) (hs01 : s0 ≤ s1) (hs1 : s1 ≤ 99) :
    ∃ c0 c1 : Int,
      id_map foot s0 = some c0 ∧ id_map foot s1 = some c1 ∧
      (∀ t : ℚ, t ∈ (get_time_sensor_slice doc foot t0 t1 s0 s1).times ↔
        (t ∈ doc.times ∧ t0 ≤ t ∧ t ≤ t1)) ∧
      (∀ c : Int, c ∈ (get_time_sensor_slice doc foot t0 t1 s0 s1).channels ↔
        (c0 ≤ c ∧ c ≤ c1)) := by
  have main : ∀ c0 c1 : Int, id_map foot s0 = some c0 → id_map foot s1 = some c1 →
      0 ≤ c0 → c1 ≤ 198 →
      (∀ t : ℚ, t ∈ (get_time_sensor_slice doc foot t0 t1 s0 s1).times ↔
        (t ∈ doc.times ∧ t0 ≤ t ∧ t ≤ t1)) ∧
      (∀ c : Int, c ∈ (get_time_sensor_slice doc foot t0 t1 s0 s1).channels ↔
        (c0 ≤ c ∧ c ≤ c1)) := by
    intro c0 c1 h0 h1 hb0 hb1
    constructor
    · intro t
      simp [get_time_sensor_slice, List.mem_filter, and_assoc]
    · intro c
      simp only [get_time_sensor_slice, h0, h1, List.mem_filter,
        decide_eq_true_eq, mem_doc_columns]
      constructor
      · rintro ⟨_, hc⟩; exact hc
      · intro hc; exact ⟨⟨by omega, by omega⟩, hc⟩
  rcases hfoot with rfl | rfl | rfl | rfl
  · exact ⟨s0 - 1, s1 - 1, by simp [id_map], by simp [id_map],
      main (s0 - 1) (s1 - 1) (by simp [id_map]) (by simp [id_map])
        (by omega) (by omega)⟩
  · exact ⟨s0 - 1, s1 - 1, by simp [id_map], by simp [id_map],
      main (s0 - 1) (s1 - 1) (by simp [id_map]) (by simp [id_map])
        (by omega) (by omega)⟩
  · exact ⟨s0 + 98, s1 + 98, by simp [id_map], by simp [id_map],
      main (s0 + 98) (s1 + 98) (by simp [id_map]) (by simp [id_map])
        (by omega) (by omega)⟩
  · exact ⟨s0 + 98, s1 + 98, by simp [id_map], by simp [id_map],
      main (s0 + 98) (s1 + 98) (by simp [id_map]) (by simp [id_map])
        (by omega) (by omega)⟩

theorem c7_witness :
    ∃ c0 c1 : Int,
      id_map "L" 1 = some c0 ∧ id_map "L" 2 = some c1 ∧
      (∀ t : ℚ, t ∈ (get_time_sensor_slice ⟨[1, 2, 5], fun _ _ => 0⟩ "L" 1 3 1 2).times ↔
        (t ∈ ([1, 2, 5] : List ℚ) ∧ 1 ≤ t ∧ t ≤ 3)) ∧
      (∀ c : Int, c ∈ (get_time_sensor_slice ⟨[1, 2, 5], fun _ _ => 0⟩ "L" 1 3 1 2).channels ↔
        (c0 ≤ c ∧ c ≤ c1)) :=
  c7_slice_inclusive ⟨[1, 2, 5], fun _ _ => 0⟩ "L" 1 3 1 2
    (Or.inl rfl) (by norm_num)
    (by norm_num [List.Sorted])
    (by decide) (by decide) (by decide)

/-- C2 (code bug): channel id `0` does paint exactly the left-grid pixels of
mask value `1` — but channel id `99`, which the class documentation assigns
to `r_index` (right-foot keys 99..197, mask value 1 for key 99), is routed by
`fill_foot_heat_map`'s `n <= 99` test to the LEFT grid, painting the pixels
whose left-mask value is `100` and leaving the right grid untouched: the
mirrored-mask pixel of value `1` stays `0`. -/
theorem c2_channel99_routed_left :
    ((fill_foot_heat_map l_mask_ex 2 [(99, 5)]).1 0 0 = 5) ∧
    ((fill_foot_heat_map l_mask_ex 2 [(99, 5)]).2 0 0 = 0) ∧
    (r_mask_of l_mask_ex 2 0 0 = 1) ∧
    ((fill_foot_heat_map l_mask_ex 2 [(0, 7)]).1 0 1 = 7) ∧
    ((fill_foot_heat_map l_mask_ex 2 [(0, 7)]).1 0 0 = 0) ∧
    ((fill_foot_heat_map l_mask_ex 2 [(0, 7)]).2 0 0 = 0) ∧
    ((fill_foot_heat_map l_mask_ex 2 [(0, 7)]).2 0 1 = 0) := by
  refine ⟨?_, ?_, ?_, ?_, ?_, ?_, ?_⟩ <;> decide

theorem stance_step_delta (asc : Pedar_asc) (su co ti fo : String)
    (facts : List (FactKey × Fact)) (i : Nat) (e : StanceEntry) :
    stance_step asc su co ti fo facts i e
      = (facts ++ (stance_delta asc su co ti fo i e).1,
         (stance_delta asc su co ti fo i e).2) := by
  cases e with
  | nonStr => simp [stance_step, stance_delta]
  | strE s =>
      cases hs : parse_start s with
      | none => simp [stance_step, stance_delta, hs]
      | some a =>
          cases he : parse_end s with
          | none => simp [stance_step, stance_delta, hs, he]
          | some b =>
              cases hsl : get_slice_checked asc fo a b with
              | none => simp [stance_step, stance_delta, hs, he, hsl]
              | some sl => simp [stance_step, stance_delta, hs, he, hsl]

theorem process_stances_aux_spec (asc : Pedar_asc) (su co ti fo : String) :
    ∀ (l : List StanceEntry) (facts : List (FactKey × Fact))
      (logs : List StanceLog) (i : Nat),
    process_stances_aux asc su co ti fo facts logs i l
      = (facts ++ (processFrom asc su co ti fo i l).1,
         logs ++ (processFrom asc su co ti fo i l).2) := by
  intro l
  induction l with
  | nil => intro facts logs i; simp [process_stances_aux, processFrom]
  | cons e rest ih =>
      intro facts logs i
      simp only [process_stances_aux, processFrom]
      rw [stance_step_delta, ih]
      simp [List.append_assoc]

theorem process_stances_eq (asc : Pedar_asc) (su co ti fo : String)
    (stances : List StanceEntry) :
    process_stances asc su co ti fo stances
      = processFrom asc su co ti fo 0 stances := by
  rw [process_stances, process_stances_aux_spec]
  simp

theorem processFrom_append (asc : Pedar_asc) (su co ti fo : String) :
    ∀ (xs ys : List StanceEntry) (i : Nat),
    processFrom asc su co ti fo i (xs ++ ys)
      = ((processFrom asc su co ti fo i xs).1
            ++ (processFrom asc su co ti fo (i + xs.length) ys).1,
         (processFrom asc su co ti fo i xs).2
            ++ (processFrom asc su co ti fo (i + xs.length) ys).2) := by
  intro xs
  induction xs with
  | nil => intro ys i; simp [processFrom]
  | cons e rest ih =>
      intro ys i
      have harith : i + (rest.length + 1) = (i + 1) + rest.length := by omega
      simp only [List.cons_append, processFrom, List.append_eq, ih,
        List.length_cons, harith, List.append_assoc]

theorem stance_delta_keys (asc : Pedar_asc) (su co ti fo : String)
    (i : Nat) (e : StanceEntry) :
    ∀ p ∈ (stance_delta asc su co ti fo i e).1, p.1.idx = i := by
  intro p hp
  cases e with
  | nonStr => simp [stance_delta, stance_step] at hp
  | strE s =>
      cases hs : parse_start s with
      | none => simp [stance_delta, stance_step, hs] at hp
      | some a =>
          cases he : parse_end s with
          | none => simp [stance_delta, stance_step, hs, he] at hp
          | some b =>
              cases hsl : get_slice_checked asc fo a b with
              | none =>
                  simp [stance_delta, stance_step, hs, he, hsl] at hp
                  rcases hp with rfl | rfl <;> rfl
              | some sl =>
                  simp [stance_delta, stance_step, hs, he, hsl] at hp
                  rcases hp with rfl | rfl | rfl <;> rfl

theorem processFrom_keys (asc : Pedar_asc) (su co ti fo : String) :
    ∀ (l : List StanceEntry) (i : Nat) (p : FactKey × Fact),
      p ∈ (processFrom asc su co ti fo i l).1 →
      i ≤ p.1.idx ∧ p.1.idx < i + l.length := by
  intro l
  induction l with
  | nil => intro i p hp; simp [processFrom] at hp
  | cons e rest ih =>
      intro i p hp
      simp only [processFrom, List.mem_append] at hp
      rcases hp with hp | hp
      · have := stance_delta_keys asc su co ti fo i e p hp
        simp [this]
      · have := ih (i + 1) p hp
        constructor <;> [omega; (simp only [List.length_cons]; omega)]

theorem lookup_append_of_ne {β : Type} (A B : List (FactKey × β)) (k : FactKey)
    (h : ∀ p ∈ A, p.1 ≠ k) : (A ++ B).lookup k = B.lookup k := by
  induction A with
  | nil => rfl
  | cons p t ih =>
      obtain ⟨pk, pv⟩ := p
      have hp : pk ≠ k := h (pk, pv) (List.mem_cons_self _ _)
      have hbeq : (k == pk) = false := by
        simp only [beq_eq_false_iff_ne]
        exact fun hh => hp hh.symm
      simp only [List.cons_append, List.lookup, hbeq]
      exact ih (fun q hq => h q (List.mem_cons_of_mem _ hq))

theorem lookup_eq_none_of_ne {β : Type} (A : List (FactKey × β)) (k : FactKey)
    (h : ∀ p ∈ A, p.1 ≠ k) : A.lookup k = none := by
  have := lookup_append_of_ne A [] k h
  simpa using this

theorem lookup_aupdate_self {α : Type} (m : List (String × α)) (k : String) (v : α) :
    (aupdate m k v).lookup k = some v := by
  induction m with
  | nil => simp [aupdate, List.lookup]
  | cons p t ih =>
      obtain ⟨pk, pv⟩ := p
      by_cases h : pk = k
      · subst h; simp [aupdate, List.lookup]
      · have hbeq : (k == pk) = false := by
          simp only [beq_eq_false_iff_ne]
          exact fun hh => h hh.symm
        simp [aupdate, h, List.lookup, hbeq, ih]

/-- C4: in the stance loop of `add_trail`, a non-string entry is skipped
silently (no facts, no log), a string entry whose start/end cannot be parsed
contributes no facts but one log carrying subject, condition, time, foot and
the raw stance string, and the remaining stances are processed exactly as
they would be at their own indices — a failing stance never aborts the
trial. -/
theorem c4_stance_failure_is_local (asc : Pedar_asc) (su co ti fo : String)
    (pre post : List StanceEntry) (s : String)
    (hfail : parse_start s = none ∨
      ∃ a, parse_start s = some a ∧ parse_end s = none) :
    process_stances asc su co ti fo
        (pre ++ StanceEntry.nonStr :: StanceEntry.strE s :: post)
      = ((processFrom asc su co ti fo 0 pre).1
            ++ (processFrom asc su co ti fo (pre.length + 2) post).1,
         (processFrom asc su co ti fo 0 pre).2
            ++ mkStanceLog su co ti fo s
            :: (processFrom asc su co ti fo (pre.length + 2) post).2) := by
  rw [process_stances_eq, processFrom_append]
  have hbad : stance_delta asc su co ti fo (0 + pre.length + 1) (StanceEntry.strE s)
      = ([], [mkStanceLog su co ti fo s]) := by
    rcases hfail with h | ⟨a, ha, hb⟩
    · simp [stance_delta, stance_step, h]
    · simp [stance_delta, stance_step, ha, hb]
  have hnon : stance_delta asc su co ti fo (0 + pre.length) StanceEntry.nonStr
      = ([], []) := by simp [stance_delta, stance_step]
  simp only [processFrom, hnon, hbad]
  have harith : 0 + pre.length + 1 + 1 = pre.length + 2 := by omega
  have harith0 : 0 + pre.length + 1 = pre.length + 1 := by omega
  simp [harith, harith0]

theorem c4_witness :
    (parse_start "abc" = none ∨
      ∃ a, parse_start "abc" = some a ∧ parse_end "abc" = none) ∧
    process_stances ⟨"p", ⟨[1, 2], fun _ _ => 0⟩⟩ "S1" "fast walking" "1" "L"
        ([StanceEntry.strE "10--20"] ++ StanceEntry.nonStr
          :: StanceEntry.strE "abc" :: [StanceEntry.strE "30--40"])
      = ((processFrom ⟨"p", ⟨[1, 2], fun _ _ => 0⟩⟩ "S1" "fast walking" "1" "L"
            0 [StanceEntry.strE "10--20"]).1
            ++ (processFrom ⟨"p", ⟨[1, 2], fun _ _ => 0⟩⟩ "S1" "fast walking" "1" "L"
            3 [StanceEntry.strE "30--40"]).1,
         (processFrom ⟨"p", ⟨[1, 2], fun _ _ => 0⟩⟩ "S1" "fast walking" "1" "L"
            0 [StanceEntry.strE "10--20"]).2
            ++ mkStanceLog "S1" "fast walking" "1" "L" "abc"
            :: (processFrom ⟨"p", ⟨[1, 2], fun _ _ => 0⟩⟩ "S1" "fast walking" "1" "L"
            3 [StanceEntry.strE "30--40"]).2) :=
  ⟨Or.inl (by decide),
   c4_stance_failure_is_local ⟨"p", ⟨[1, 2], fun _ _ => 0⟩⟩ "S1" "fast walking" "1" "L"
     [StanceEntry.strE "10--20"] [StanceEntry.strE "30--40"] "abc"
     (Or.inl (by decide))⟩

/-- C10: per-stance processing is not atomic — when the start/end of stance
`i` parse but the slice extraction raises, `add_trail` leaves the foot
dictionary holding the scalar facts `{i}_start` and `{i}_end` while the
slice fact `{i}` is absent. -/
theorem c10_stance_state_not_rolled_back (fs : String → Option Pedar_doc)
    (subj : Pedar_Subject) (asc condition time foot : String)
    (pre post : List StanceEntry) (s : String) (a b : ℚ) (doc : Pedar_doc)
    (hfs : fs (asc_path subj.folder subj.name asc) = some doc)
    (hs : parse_start s = some a) (he : parse_end s = some b)
    (hraise : get_slice_checked ⟨asc_path subj.folder subj.name asc, doc⟩ foot a b
      = none) :
    ∃ facts,
      foot_facts (add_trail fs subj asc condition time foot
          (pre ++ StanceEntry.strE s :: post)).subject condition time foot
        = some facts ∧
      facts.lookup (FactKey.startK pre.length) = some (Fact.scalar a) ∧
      facts.lookup (FactKey.endK pre.length) = some (Fact.scalar b) ∧
      facts.lookup (FactKey.sliceK pre.length) = none := by
  have hfacts : foot_facts (add_trail fs subj asc condition time foot
      (pre ++ StanceEntry.strE s :: post)).subject condition time foot
      = some (process_stances ⟨asc_path subj.folder subj.name asc, doc⟩
          subj.name condition time foot (pre ++ StanceEntry.strE s :: post)).1 := by
    simp only [add_trail, foot_facts, hfs, lookup_aupdate_self, Option.some_bind]
  have hsplit : (process_stances ⟨asc_path subj.folder subj.name asc, doc⟩
      subj.name condition time foot (pre ++ StanceEntry.strE s :: post)).1
      = (processFrom ⟨asc_path subj.folder subj.name asc, doc⟩
          subj.name condition time foot 0 pre).1
        ++ ((FactKey.startK pre.length, Fact.scalar a)
            :: (FactKey.endK pre.length, Fact.scalar b)
            :: (processFrom ⟨asc_path subj.folder subj.name asc, doc⟩
                subj.name condition time foot (pre.length + 1) post).1) := by
    rw [process_stances_eq, processFrom_append]
    simp only [processFrom, stance_delta, stance_step, hs, he, hraise, Nat.zero_add]
    simp
  have hA : ∀ p ∈ (processFrom ⟨asc_path subj.folder subj.name asc, doc⟩
      subj.name condition time foot 0 pre).1, p.1.idx < pre.length := by
    intro p hp
    have := processFrom_keys _ _ _ _ _ pre 0 p hp
    omega
  have hB : ∀ p ∈ (processFrom ⟨asc_path subj.folder subj.name asc, doc⟩
      subj.name condition time foot (pre.length + 1) post).1,
      pre.length + 1 ≤ p.1.idx := by
    intro p hp
    exact (processFrom_keys _ _ _ _ _ post (pre.length + 1) p hp).1
  refine ⟨_, hfacts, ?_, ?_, ?_⟩ <;> rw [hsplit]
  · rw [lookup_append_of_ne]
    · simp [List.lookup]
    · intro p hp hk
      have := hA p hp
      rw [hk] at this
      simp [FactKey.idx] at this
  · rw [lookup_append_of_ne]
    · have h1 : (FactKey.endK pre.length == FactKey.startK pre.length) = false :=
        beq_eq_false_iff_ne.mpr (fun h => FactKey.noConfusion h)
      simp [List.lookup, h1]
    · intro p hp hk
      have := hA p hp
      rw [hk] at this
      simp [FactKey.idx] at this
  · rw [lookup_append_of_ne]
    · have hnone : (processFrom ⟨asc_path subj.folder subj.name asc, doc⟩
          subj.name condition time foot (pre.length + 1) post).1.lookup
          (FactKey.sliceK pre.length) = none := by
        apply lookup_eq_none_of_ne
        intro p hp hk
        have := hB p hp
        rw [hk] at this
        simp [FactKey.idx] at this
      have h1 : (FactKey.sliceK pre.length == FactKey.startK pre.length) = false :=
        beq_eq_false_iff_ne.mpr (fun h => FactKey.noConfusion h)
      have h2 : (FactKey.sliceK pre.length == FactKey.endK pre.length) = false :=
        beq_eq_false_iff_ne.mpr (fun h => FactKey.noConfusion h)
      simp [List.lookup, h1, h2, hnone]
    · intro p hp hk
      have := hA p hp
      rw [hk] at this
      simp [FactKey.idx] at this

theorem c10_witness :
    ∃ facts,
      foot_facts (add_trail (fun _ => some ⟨[5, 3, 4], fun _ _ => 0⟩)
          ⟨"S1", "subjects", []⟩ "S1 fast walking 1" "fast walking" "1" "L"
          ([] ++ StanceEntry.strE "10--20" :: [])).subject "fast walking" "1" "L"
        = some facts ∧
      facts.lookup (FactKey.startK 0) = some (Fact.scalar 10) ∧
      facts.lookup (FactKey.endK 0) = some (Fact.scalar 20) ∧
      facts.lookup (FactKey.sliceK 0) = none :=
  c10_stance_state_not_rolled_back (fun _ => some ⟨[5, 3, 4], fun _ _ => 0⟩)
    ⟨"S1", "subjects", []⟩ "S1 fast walking 1" "fast walking" "1" "L"
    [] [] "10--20" 10 20 ⟨[5, 3, 4], fun _ _ => 0⟩
    rfl (by decide) (by decide) (by decide)

/-- C5 counterexample: calling `add_trail` twice for the same recording
identifier at the same condition/time location reads the recording file both
times — the second call does not reuse the already-loaded table. -/
theorem c5_counterexample :
    (add_trail (fun _ => some ⟨[], fun _ _ => 0⟩) ⟨"S1", "subjects", []⟩
        "S1 fast walking 1" "fast walking" "1" "L" []).loads
      = ["subjects/S1/S1 fast walking 1.asc"] ∧
    (add_trail (fun _ => some ⟨[], fun _ _ => 0⟩)
        (add_trail (fun _ => some ⟨[], fun _ _ => 0⟩) ⟨"S1", "subjects", []⟩
          "S1 fast walking 1" "fast walking" "1" "L" []).subject
        "S1 fast walking 1" "fast walking" "1" "R" []).loads
      = ["subjects/S1/S1 fast walking 1.asc"] ∧
    ["subjects/S1/S1 fast walking 1.asc", "subjects/S1/S1 fast walking 1.asc"]
      ≠ ["subjects/S1/S1 fast walking 1.asc"] := by
  refine ⟨rfl, rfl, by decide⟩

/-- C5 (amended): `add_trail` reads the recording file on every invocation —
it constructs a fresh TrialTable unconditionally and overwrites
`trails[condition][time]['asc']` with it, instead of reusing a table already
loaded at that location. -/
theorem c5_always_reloads (fs : String → Option Pedar_doc)
    (subj : Pedar_Subject) (asc condition time foot : String)
    (stances : List StanceEntry) (doc : Pedar_doc)
    (hfs : fs (asc_path subj.folder subj.name asc) = some doc) :
    (add_trail fs subj asc condition time foot stances).loads
      = [asc_path subj.folder subj.name asc] ∧
    ∃ cm slot,
      (add_trail fs subj asc condition time foot stances).subject.trails.lookup
        condition = some cm ∧
      cm.lookup time = some slot ∧
      slot.asc = some ⟨asc_path subj.folder subj.name asc, doc⟩ := by
  simp only [add_trail, hfs]
  exact ⟨trivial, _, _, lookup_aupdate_self _ _ _, lookup_aupdate_self _ _ _, rfl⟩

theorem c5_witness :
    (add_trail (fun _ => some ⟨[], fun _ _ => 0⟩) ⟨"S1", "subjects", []⟩
        "S1 fast walking 1" "fast walking" "1" "L" []).loads
      = ["subjects/S1/S1 fast walking 1.asc"] ∧
    ∃ cm slot,
      (add_trail (fun _ => some ⟨[], fun _ _ => 0⟩) ⟨"S1", "subjects", []⟩
          "S1 fast walking 1" "fast walking" "1" "L" []).subject.trails.lookup
        "fast walking" = some cm ∧
      cm.lookup "1" = some slot ∧
      slot.asc = some ⟨"subjects/S1/S1 fast walking 1.asc", ⟨[], fun _ _ => 0⟩⟩ :=
  c5_always_reloads (fun _ => some ⟨[], fun _ _ => 0⟩) ⟨"S1", "subjects", []⟩
    "S1 fast walking 1" "fast walking" "1" "L" [] ⟨[], fun _ _ => 0⟩ rfl

/-- C3: when a row's identifier fails the naming pattern, the loop logs the
invalid entry and exits: the final parser state and event log are those of
the preceding rows alone (plus the invalid-entry message), and no row after
the first malformed identifier is processed. -/
theorem c3_malformed_id_stops_loop (fs : String → Option Pedar_doc)
    (conds : List String) (folder : String) (subs : Subjects) (i0 : Nat)
    (pre post : List TrailRow) (bad : TrailRow)
    (hpre : ∀ r ∈ pre, matchAsc conds r.asc = true)
    (hbad : matchAsc conds bad.asc = false) :
    parser_loop fs conds folder subs i0 (pre ++ bad :: post)
      = ((parser_loop fs conds folder subs i0 pre).1,
         (parser_loop fs conds folder subs i0 pre).2
            ++ [LoopEvent.invalidAsc bad.asc]) ∧
    (parser_loop fs conds folder subs i0 pre).2.length = pre.length := by
  induction pre generalizing subs i0 with
  | nil =>
      simp [parser_loop, hbad]
  | cons r rest ih =>
      have hr : matchAsc conds r.asc = true := hpre r (List.mem_cons_self _ _)
      have hrest : ∀ q ∈ rest, matchAsc conds q.asc = true :=
        fun q hq => hpre q (List.mem_cons_of_mem _ hq)
      have hstep : ∀ (l : List TrailRow) (s : Subjects) (j : Nat),
          parser_loop fs conds folder s j (r :: l)
            = ((parser_loop fs conds folder (process_row fs folder s j r).1 (j + 1) l).1,
               (process_row fs folder s j r).2
                 :: (parser_loop fs conds folder (process_row fs folder s j r).1 (j + 1) l).2) := by
        intro l s j
        simp [parser_loop, hr]
      rw [List.cons_append, hstep (rest ++ bad :: post) subs i0, hstep rest subs i0]
      obtain ⟨h1, h2⟩ := ih (process_row fs folder subs i0 r).1 (i0 + 1) hrest
      rw [h1]
      exact ⟨rfl, by simp [h2]⟩

theorem c3_witness :
    parser_loop (fun _ => some ⟨[], fun _ _ => 0⟩) ["fast walking"] "subjects"
        [] 0
        ([⟨"S1 fast walking 1", "L", []⟩]
          ++ (⟨"bad entry", "L", []⟩ : TrailRow)
          :: [⟨"S2 fast walking 1", "R", []⟩])
      = ((parser_loop (fun _ => some ⟨[], fun _ _ => 0⟩) ["fast walking"]
            "subjects" [] 0 [⟨"S1 fast walking 1", "L", []⟩]).1,
         (parser_loop (fun _ => some ⟨[], fun _ _ => 0⟩) ["fast walking"]
            "subjects" [] 0 [⟨"S1 fast walking 1", "L", []⟩]).2
            ++ [LoopEvent.invalidAsc "bad entry"]) ∧
    (parser_loop (fun _ => some ⟨[], fun _ _ => 0⟩) ["fast walking"]
        "subjects" [] 0 [⟨"S1 fast walking 1", "L", []⟩]).2.length = 1 :=
  c3_malformed_id_stops_loop (fun _ => some ⟨[], fun _ _ => 0⟩) ["fast walking"]
    "subjects" [] 0 [⟨"S1 fast walking 1", "L", []⟩]
    [⟨"S2 fast walking 1", "R", []⟩] ⟨"bad entry", "L", []⟩
    (by intro r hr; simp at hr; rw [hr]; decide)
    (by decide)

theorem getD_set_ne {α : Type} (l : List α) (i r : Nat) (v d : α)
    (hne : r ≠ i) : (l.set i v).getD r d = l.getD r d := by
  induction l generalizing i r with
  | nil => simp
  | cons a t ih =>
      cases i with
      | zero =>
          cases r with
          | zero => omega
          | succ r' => simp
      | succ i' =>
          cases r with
          | zero => simp
          | succ r' => simpa using ih i' r' (by omega)

theorem getD_set_self {α : Type} (l : List α) (i : Nat) (v d : α)
    (h : i < l.length) : (l.set i v).getD i d = v := by
  induction l generalizing i with
  | nil => simp at h
  | cons a t ih =>
      cases i with
      | zero => simp
      | succ i' => simpa using ih i' (by simpa using h)

theorem read_write_ne (h : NpHeap) (r q : Nat) (g : NpGrid) (hne : q ≠ r) :
    (h.write r g).read q = h.read q :=
  getD_set_ne h.arrays r q g [] hne

theorem read_write_self (h : NpHeap) (r : Nat) (g : NpGrid)
    (hr : r < h.arrays.length) : (h.write r g).read r = g :=
  getD_set_self h.arrays r g [] hr

theorem write_len (h : NpHeap) (r : Nat) (g : NpGrid) :
    (h.write r g).arrays.length = h.arrays.length := by
  simp [NpHeap.write]

theorem deepcopy_obj (h : NpHeap) (o : FootHeatmap) :
    (deepcopy h o).2 = ⟨h.arrays.length, h.arrays.length + 1⟩ := by
  simp [deepcopy, NpHeap.alloc]

theorem deepcopy_len (h : NpHeap) (o : FootHeatmap) :
    (deepcopy h o).1.arrays.length = h.arrays.length + 2 := by
  simp [deepcopy, NpHeap.alloc]

theorem read_deepcopy_old (h : NpHeap) (o : FootHeatmap) (r : Nat)
    (hr : r < h.arrays.length) : (deepcopy h o).1.read r = h.read r := by
  simp only [deepcopy, NpHeap.alloc, NpHeap.read]
  rw [List.getD_append _ _ _ _ (by simp; omega), List.getD_append _ _ _ _ hr]

theorem read_deepcopy_l (h : NpHeap) (o : FootHeatmap) :
    (deepcopy h o).1.read h.arrays.length = h.read o.l_pedar := by
  simp only [deepcopy, NpHeap.alloc, NpHeap.read]
  rw [List.getD_append _ _ _ _ (by simp)]
  rw [List.getD_append_right _ _ _ _ (by omega)]
  simp

theorem read_deepcopy_r (h : NpHeap) (o : FootHeatmap) :
    (deepcopy h o).1.read (h.arrays.length + 1) = h.read o.r_pedar := by
  simp only [deepcopy, NpHeap.alloc, NpHeap.read]
  rw [List.getD_append_right _ _ _ _ (by simp)]
  simp

theorem preserves_refl (h : NpHeap) : Preserves h h :=
  ⟨Nat.le_refl _, fun _ _ => rfl⟩

theorem preserves_trans {h1 h2 h3 : NpHeap} (p1 : Preserves h1 h2)
    (p2 : Preserves h2 h3) : Preserves h1 h3 :=
  ⟨Nat.le_trans p1.1 p2.1,
   fun r hr => (p2.2 r (Nat.lt_of_lt_of_le hr p1.1)).trans (p1.2 r hr)⟩

theorem deepcopy_preserves (h : NpHeap) (o : FootHeatmap) :
    Preserves h (deepcopy h o).1 :=
  ⟨by rw [deepcopy_len]; omega, fun r hr => read_deepcopy_old h o r hr⟩

theorem write_big_preserves {h h' : NpHeap} (p : Preserves h h') (r : Nat)
    (hr : h.arrays.length ≤ r) (g : NpGrid) : Preserves h (h'.write r g) :=
  ⟨by rw [write_len]; exact p.1,
   fun q hq => by
     rw [read_write_ne h' r q g (by omega)]
     exact p.2 q hq⟩

theorem hm_binop_frame (f : ℚ → ℚ → ℚ) (h : NpHeap) (a b : FootHeatmap)
    (out : NpHeap × FootHeatmap) (hout : hm_binop f h a b = some out) :
    Preserves h out.1 ∧ FreshObj h out.2 := by
  simp only [hm_binop, deepcopy_obj, Option.bind_eq_some, Option.map_eq_some']
    at hout
  obtain ⟨gl, _, gr, _, hout⟩ := hout
  subst hout
  constructor
  · exact write_big_preserves
      (write_big_preserves (deepcopy_preserves h a) _ (Nat.le_refl _) gl)
      _ (Nat.le_succ _) gr
  · exact ⟨Nat.le_refl _, Nat.le_succ _⟩

theorem hm_mul_frame (h : NpHeap) (a : FootHeatmap) (val : ℚ) :
    Preserves h (hm_mul h a val).1 ∧ FreshObj h (hm_mul h a val).2 := by
  simp only [hm_mul, deepcopy_obj]
  constructor
  · exact write_big_preserves
      (write_big_preserves (deepcopy_preserves h a) _ (Nat.le_refl _) _)
      _ (Nat.le_succ _) _
  · exact ⟨Nat.le_refl _, Nat.le_succ _⟩

theorem hm_div_frame (h : NpHeap) (a : FootHeatmap) (val : ℚ) :
    Preserves h (hm_div h a val).1 ∧ FreshObj h (hm_div h a val).2 := by
  simp only [hm_div, deepcopy_obj]
  constructor
  · exact write_big_preserves
      (write_big_preserves (deepcopy_preserves h a) _ (Nat.le_refl _) _)
      _ (Nat.le_succ _) _
  · exact ⟨Nat.le_refl _, Nat.le_succ _⟩

theorem hm_sum_preserves :
    ∀ (xs : List FootHeatmap) (h : NpHeap) (acc : FootHeatmap)
      (out : NpHeap × FootHeatmap),
      hm_sum h acc xs = some out → Preserves h out.1 := by
  intro xs
  induction xs with
  | nil =>
      intro h acc out hout
      simp only [hm_sum] at hout
      cases hout
      exact preserves_refl h
  | cons x t ih =>
      intro h acc out hout
      simp only [hm_sum] at hout
      cases hadd : hm_add h acc x with
      | none => rw [hadd] at hout; exact absurd hout (by simp)
      | some r =>
          rw [hadd] at hout
          exact preserves_trans (hm_binop_frame _ h acc x r hadd).1
            (ih r.1 r.2 out hout)

theorem freshobj_mono {h h' : NpHeap} {o : FootHeatmap}
    (hle : h.arrays.length ≤ h'.arrays.length) (hf : FreshObj h' o) :
    FreshObj h o :=
  ⟨Nat.le_trans hle hf.1, Nat.le_trans hle hf.2⟩

/-- C9: every distribution arithmetic operation — addition, subtraction,
scalar multiplication, scalar division, n-ary average — returns a freshly
allocated distribution object and leaves every pre-existing array (in
particular the left and right grids of every operand) unchanged. -/
theorem c9_ops_no_mutation :
    (∀ (h : NpHeap) (a b : FootHeatmap) (out : NpHeap × FootHeatmap),
        hm_add h a b = some out → Preserves h out.1 ∧ FreshObj h out.2) ∧
    (∀ (h : NpHeap) (a b : FootHeatmap) (out : NpHeap × FootHeatmap),
        hm_sub h a b = some out → Preserves h out.1 ∧ FreshObj h out.2) ∧
    (∀ (h : NpHeap) (a : FootHeatmap) (val : ℚ),
        Preserves h (hm_mul h a val).1 ∧ FreshObj h (hm_mul h a val).2) ∧
    (∀ (h : NpHeap) (a : FootHeatmap) (val : ℚ),
        Preserves h (hm_div h a val).1 ∧ FreshObj h (hm_div h a val).2) ∧
    (∀ (h : NpHeap) (hms : List FootHeatmap) (out : NpHeap × FootHeatmap),
        hm_average h hms = some out → Preserves h out.1 ∧ FreshObj h out.2) := by
  refine ⟨fun h a b out hout => hm_binop_frame _ h a b out hout,
    fun h a b out hout => hm_binop_frame _ h a b out hout,
    hm_mul_frame, hm_div_frame, ?_⟩
  intro h hms out hout
  cases hms with
  | nil => exact absurd hout (by simp [hm_average])
  | cons h0 rest =>
      simp only [hm_average] at hout
      cases hsum : hm_sum h h0 rest with
      | none => rw [hsum] at hout; exact absurd hout (by simp)
      | some r =>
          rw [hsum] at hout
          cases hout
          have hp := hm_sum_preserves rest h h0 r hsum
          have hd := hm_div_frame r.1 r.2 (((h0 :: rest).length : Nat) : ℚ)
          exact ⟨preserves_trans hp hd.1, freshobj_mono hp.1 hd.2⟩

theorem c9_witness :
    (∃ out, hm_add ⟨[[[1]], [[2]]]⟩ ⟨0, 0⟩ ⟨1, 1⟩ = some out ∧
      Preserves ⟨[[[1]], [[2]]]⟩ out.1 ∧ FreshObj ⟨[[[1]], [[2]]]⟩ out.2) ∧
    (∃ out, hm_sub ⟨[[[1]], [[2]]]⟩ ⟨0, 0⟩ ⟨1, 1⟩ = some out ∧
      Preserves ⟨[[[1]], [[2]]]⟩ out.1 ∧ FreshObj ⟨[[[1]], [[2]]]⟩ out.2) ∧
    (Preserves ⟨[[[1]], [[2]]]⟩ (hm_mul ⟨[[[1]], [[2]]]⟩ ⟨0, 1⟩ 3).1 ∧
      FreshObj ⟨[[[1]], [[2]]]⟩ (hm_mul ⟨[[[1]], [[2]]]⟩ ⟨0, 1⟩ 3).2) ∧
    (Preserves ⟨[[[1]], [[2]]]⟩ (hm_div ⟨[[[1]], [[2]]]⟩ ⟨0, 1⟩ 3).1 ∧
      FreshObj ⟨[[[1]], [[2]]]⟩ (hm_div ⟨[[[1]], [[2]]]⟩ ⟨0, 1⟩ 3).2) ∧
    (∃ out, hm_average ⟨[[[1]], [[2]]]⟩ [⟨0, 1⟩, ⟨0, 1⟩] = some out ∧
      Preserves ⟨[[[1]], [[2]]]⟩ out.1 ∧ FreshObj ⟨[[[1]], [[2]]]⟩ out.2) := by
  refine ⟨?_, ?_, c9_ops_no_mutation.2.2.1 _ _ 3,
    c9_ops_no_mutation.2.2.2.1 _ _ 3, ?_⟩
  · rcases hadd : hm_add ⟨[[[1]], [[2]]]⟩ ⟨0, 0⟩ ⟨1, 1⟩ with _ | out
    · exact absurd hadd (by decide)
    · exact ⟨out, rfl, c9_ops_no_mutation.1 _ _ _ _ hadd⟩
  · rcases hsub : hm_sub ⟨[[[1]], [[2]]]⟩ ⟨0, 0⟩ ⟨1, 1⟩ with _ | out
    · exact absurd hsub (by decide)
    · exact ⟨out, rfl, c9_ops_no_mutation.2.1 _ _ _ _ hsub⟩
  · rcases havg : hm_average ⟨[[[1]], [[2]]]⟩ [⟨0, 1⟩, ⟨0, 1⟩] with _ | out
    · exact absurd havg (by decide)
    · exact ⟨out, rfl, c9_ops_no_mutation.2.2.2.2 _ _ _ havg⟩

theorem comb_row_length (f : ℚ → ℚ → ℚ) (src : NpGrid) (i : Nat) :
    ∀ (j : Nat) (row : List ℚ), (comb_row f src i j row).length = row.length := by
  intro j row
  induction row generalizing j with
  | nil => rfl
  | cons v vs ih => simp [comb_row, ih]

theorem comb_rows_length (f : ℚ → ℚ → ℚ) (src : NpGrid) :
    ∀ (i : Nat) (rows : List (List ℚ)),
      (comb_rows f src i rows).length = rows.length := by
  intro i rows
  induction rows generalizing i with
  | nil => rfl
  | cons r t ih => simp [comb_rows, ih]

theorem comb_rows_shape (f : ℚ → ℚ → ℚ) (src dst : NpGrid) (i : Nat) :
    np_shape (comb_rows f src i dst) = np_shape dst := by
  cases dst with
  | nil => rfl
  | cons r t =>
      simp [np_shape, comb_rows, comb_rows_length, comb_row_length]

theorem bcast_ok_of_shape_eq (dst src : NpGrid)
    (hs : np_shape src = np_shape dst) : bcast_ok dst src = true := by
  simp [bcast_ok, hs]

theorem hm_add_ok_of_shape (h : NpHeap) (acc x : FootHeatmap)
    (hvl : x.l_pedar < h.arrays.length) (hvr : x.r_pedar < h.arrays.length)
    (hxl : np_shape (h.read x.l_pedar) = np_shape (h.read acc.l_pedar))
    (hxr : np_shape (h.read x.r_pedar) = np_shape (h.read acc.r_pedar)) :
    ∃ h' n, hm_add h acc x = some (h', n) ∧
      Preserves h h' ∧
      n.l_pedar < h'.arrays.length ∧ n.r_pedar < h'.arrays.length ∧
      np_shape (h'.read n.l_pedar) = np_shape (h.read acc.l_pedar) ∧
      np_shape (h'.read n.r_pedar) = np_shape (h.read acc.r_pedar) := by
  have hobj := deepcopy_obj h acc
  have hlen := deepcopy_len h acc
  have hr1l := read_deepcopy_l h acc
  have hr1r := read_deepcopy_r h acc
  have hr1bl := read_deepcopy_old h acc x.l_pedar hvl
  have hr1br := read_deepcopy_old h acc x.r_pedar hvr
  have hb1 : bcast_ok ((deepcopy h acc).1.read h.arrays.length)
      ((deepcopy h acc).1.read x.l_pedar) = true := by
    rw [hr1l, hr1bl]
    exact bcast_ok_of_shape_eq _ _ hxl
  have hcomb1 : inplace_comb (· + ·) ((deepcopy h acc).1.read h.arrays.length)
      ((deepcopy h acc).1.read x.l_pedar)
      = some (comb_rows (· + ·) ((deepcopy h acc).1.read x.l_pedar) 0
          ((deepcopy h acc).1.read h.arrays.length)) := by
    simp [inplace_comb, hb1]
  set g1 := comb_rows (· + ·) ((deepcopy h acc).1.read x.l_pedar) 0
      ((deepcopy h acc).1.read h.arrays.length) with hg1
  have hg1shape : np_shape g1 = np_shape (h.read acc.l_pedar) := by
    rw [hg1, comb_rows_shape, hr1l]
  set h2 := (deepcopy h acc).1.write h.arrays.length g1 with hh2
  have hh2r : h2.read (h.arrays.length + 1) = h.read acc.r_pedar := by
    rw [hh2, read_write_ne _ _ _ _ (by omega), hr1r]
  have hh2br : h2.read x.r_pedar = h.read x.r_pedar := by
    rw [hh2, read_write_ne _ _ _ _ (by omega), hr1br]
  have hb2 : bcast_ok (h2.read (h.arrays.length + 1)) (h2.read x.r_pedar)
      = true := by
    rw [hh2r, hh2br]
    exact bcast_ok_of_shape_eq _ _ hxr
  have hcomb2 : inplace_comb (· + ·) (h2.read (h.arrays.length + 1))
      (h2.read x.r_pedar)
      = some (comb_rows (· + ·) (h2.read x.r_pedar) 0
          (h2.read (h.arrays.length + 1))) := by
    simp [inplace_comb, hb2]
  set g2 := comb_rows (· + ·) (h2.read x.r_pedar) 0
      (h2.read (h.arrays.length + 1)) with hg2
  have hg2shape : np_shape g2 = np_shape (h.read acc.r_pedar) := by
    rw [hg2, comb_rows_shape, hh2r]
  have h2len : h2.arrays.length = h.arrays.length + 2 := by
    rw [hh2, write_len, hlen]
  refine ⟨h2.write (h.arrays.length + 1) g2,
    ⟨h.arrays.length, h.arrays.length + 1⟩, ?_, ?_, ?_, ?_, ?_, ?_⟩
  · simp only [hm_add, hm_binop, hobj]
    rw [hcomb1]
    simp only [Option.some_bind]
    rw [← hh2, hcomb2]
    simp only [Option.map_some']
  · exact write_big_preserves
      (write_big_preserves (deepcopy_preserves h acc) _ (Nat.le_refl _) g1)
      _ (Nat.le_succ _) g2
  · show h.arrays.length < (h2.write (h.arrays.length + 1) g2).arrays.length
    simp only [write_len, h2len]
    omega
  · show h.arrays.length + 1 < (h2.write (h.arrays.length + 1) g2).arrays.length
    simp only [write_len, h2len]
    omega
  · show np_shape ((h2.write (h.arrays.length + 1) g2).read h.arrays.length)
      = np_shape (h.read acc.l_pedar)
    rw [read_write_ne _ _ _ _ (by omega), hh2,
      read_write_self _ _ _ (by rw [hlen]; omega)]
    exact hg1shape
  · show np_shape ((h2.write (h.arrays.length + 1) g2).read (h.arrays.length + 1))
      = np_shape (h.read acc.r_pedar)
    rw [read_write_self _ _ _ (by rw [h2len]; omega)]
    exact hg2shape

theorem hm_sum_ok :
    ∀ (xs : List FootHeatmap) (h : NpHeap) (acc : FootHeatmap),
      (∀ x ∈ xs, x.l_pedar < h.arrays.length ∧ x.r_pedar < h.arrays.length) →
      (∀ x ∈ xs, np_shape (h.read x.l_pedar) = np_shape (h.read acc.l_pedar) ∧
        np_shape (h.read x.r_pedar) = np_shape (h.read acc.r_pedar)) →
      ∃ out, hm_sum h acc xs = some out := by
  intro xs
  induction xs with
  | nil => exact fun h acc _ _ => ⟨(h, acc), rfl⟩
  | cons x t ih =>
      intro h acc hv hs
      obtain ⟨h', n, hadd, hpres, hnl, hnr, hshl, hshr⟩ :=
        hm_add_ok_of_shape h acc x
          (hv x (List.mem_cons_self _ _)).1 (hv x (List.mem_cons_self _ _)).2
          (hs x (List.mem_cons_self _ _)).1 (hs x (List.mem_cons_self _ _)).2
      have hv' : ∀ y ∈ t, y.l_pedar < h'.arrays.length ∧
          y.r_pedar < h'.arrays.length := by
        intro y hy
        have := hv y (List.mem_cons_of_mem _ hy)
        exact ⟨Nat.lt_of_lt_of_le this.1 hpres.1,
          Nat.lt_of_lt_of_le this.2 hpres.1⟩
      have hs' : ∀ y ∈ t, np_shape (h'.read y.l_pedar)
          = np_shape (h'.read n.l_pedar) ∧
          np_shape (h'.read y.r_pedar) = np_shape (h'.read n.r_pedar) := by
        intro y hy
        have hvy := hv y (List.mem_cons_of_mem _ hy)
        have hsy := hs y (List.mem_cons_of_mem _ hy)
        rw [hpres.2 y.l_pedar hvy.1, hpres.2 y.r_pedar hvy.2, hshl, hshr]
        exact hsy
      obtain ⟨out, hsum⟩ := ih h' n hv' hs'
      refine ⟨out, ?_⟩
      simp only [hm_sum]
      rw [hadd]
      exact hsum

/-- C8 (amended): `average` fails on empty input (`hms[0]` raises
`IndexError`), and succeeds on any non-empty family whose grids all share
the first operand's grid shapes.  (The original claim that it fails on ALL
mismatched shapes is refuted by `c8_counterexample`: shapes that numpy can
broadcast in place succeed silently.) -/
theorem c8_average_empty_fails (h : NpHeap) (a : FootHeatmap)
    (rest : List FootHeatmap)
    (hv : ∀ x ∈ rest, x.l_pedar < h.arrays.length ∧
      x.r_pedar < h.arrays.length)
    (hs : ∀ x ∈ rest, np_shape (h.read x.l_pedar) = np_shape (h.read a.l_pedar) ∧
      np_shape (h.read x.r_pedar) = np_shape (h.read a.r_pedar)) :
    hm_average h [] = none ∧ (hm_average h (a :: rest)).isSome = true := by
  refine ⟨rfl, ?_⟩
  obtain ⟨out, hsum⟩ := hm_sum_ok rest h a hv hs
  simp [hm_average, hsum]

theorem c8_witness :
    hm_average (⟨[[[1]], [[2]], [[3]], [[4]]]⟩ : NpHeap) [] = none ∧
    (hm_average (⟨[[[1]], [[2]], [[3]], [[4]]]⟩ : NpHeap)
      [⟨0, 1⟩, ⟨2, 3⟩]).isSome = true :=
  c8_average_empty_fails ⟨[[[1]], [[2]], [[3]], [[4]]]⟩ ⟨0, 1⟩ [⟨2, 3⟩]
    (by intro x hx; simp at hx; rw [hx]; exact ⟨by decide, by decide⟩)
    (by intro x hx; simp at hx; rw [hx]; exact ⟨by decide, by decide⟩)

/-- C8 counterexample: two distributions whose grid shapes differ — `(2, 3)`
versus `(1, 3)` — yet `average` succeeds, because a `(1, 3)` array
broadcasts in place into a `(2, 3)` array; the original claim that `average`
fails on every shape mismatch is therefore false. -/
theorem c8_counterexample :
    np_shape ((⟨[[[0, 0, 0], [0, 0, 0]], [[0, 0, 0], [0, 0, 0]],
        [[1, 2, 3]], [[4, 5, 6]]]⟩ : NpHeap).read 0)
      ≠ np_shape ((⟨[[[0, 0, 0], [0, 0, 0]], [[0, 0, 0], [0, 0, 0]],
        [[1, 2, 3]], [[4, 5, 6]]]⟩ : NpHeap).read 2) ∧
    (hm_average (⟨[[[0, 0, 0], [0, 0, 0]], [[0, 0, 0], [0, 0, 0]],
        [[1, 2, 3]], [[4, 5, 6]]]⟩ : NpHeap)
      [⟨0, 1⟩, ⟨2, 3⟩]).isSome = true := by
  exact ⟨by decide, by decide⟩

end PedarProbe
